import Mathlib

/-!
Shallow embedding of the risk-gated tool-execution pipeline of the
AMMU_AI_COPT repository.

The embedded code lives in two places of the source tree:

* `ToolsService` (target allow-list, risk assessor, nmap argument builder,
  command runner, tool adapters, `executeTool`);
* the Express routes `POST /api/protected/tools/execute` and
  `POST /api/protected/tools/:id/approve` together with the
  `storage.createToolRun` / `storage.updateToolRun` persistence calls.

JavaScript strings are modelled as Lean `String`; where character-level
reasoning is needed we work on `String.data : List Char`.  `undefined`
values of optional fields are modelled with `Option`, and the JavaScript
string coercion `String(undefined) = "undefined"` by `jsString`.
-/

set_option maxRecDepth 8000

namespace Ammu

/-- JavaScript string coercion of a possibly-`undefined` value: an absent
field coerces to the string `"undefined"` when used where a string is
expected (e.g. fed to a `RegExp.test`). -/
def jsString (o : Option String) : String := o.getD "undefined"

/-! ## Target Policy Guard (`ToolsService.allowedTargets` / `isTargetAllowed`) -/

/-- Generic prefix test on character lists; `startsWithChars p l` is the
semantics of an anchored regular expression `/^p/` made of literal
characters, applied to `l`. -/
def startsWithChars : List Char → List Char → Bool
  | [], _ => true
  | _ :: _, [] => false
  | p :: ps, x :: xs => p == x && startsWithChars ps xs

/-- The regex `/^192\.168\./` of `allowedTargets`. -/
def matches192168 (l : List Char) : Bool :=
  startsWithChars ['1', '9', '2', '.', '1', '6', '8', '.'] l

/-- The regex `/^10\./` of `allowedTargets`. -/
def matches10 (l : List Char) : Bool :=
  startsWithChars ['1', '0', '.'] l

/-- The character class `(1[6-9]|2[0-9]|3[01])` of the third
`allowedTargets` regex, applied to the two characters following `172.`. -/
def class172 (c1 c2 : Char) : Bool :=
  (c1 == '1' && (c2 == '6' || c2 == '7' || c2 == '8' || c2 == '9')) ||
  (c1 == '2' && c2.isDigit) ||
  (c1 == '3' && (c2 == '0' || c2 == '1'))

/-- After the literal `172.` prefix, the regex requires two characters in
the class followed by a dot. -/
def tail172 : List Char → Bool
  | c1 :: c2 :: c3 :: _ => class172 c1 c2 && c3 == '.'
  | _ => false

/-- The regex `/^172\.(1[6-9]|2[0-9]|3[01])\./` of `allowedTargets`:
the literal prefix `172.`, two characters in the class, then a dot. -/
def matches172 (l : List Char) : Bool :=
  startsWithChars ['1', '7', '2', '.'] l && tail172 (l.drop 4)

/-- `ToolsService.isTargetAllowed`: walks `allowedTargets` in order — the
string literals `"127.0.0.1"` and `"localhost"` compared with `===`, then
the three private-range regexes tested with `RegExp.test`. -/
def isTargetAllowed (target : String) : Bool :=
  target == "127.0.0.1" || target == "localhost" ||
  matches192168 target.data || matches10 target.data || matches172 target.data

/-! ## Loose tool arguments

The routes validate the request body with
`toolExecutionSchema = z.object { toolName : string, arguments : record(any), … }`,
so the `arguments` record is free-form; `ToolsService` only ever reads the
fields below (each possibly `undefined`). -/

structure ToolArgs where
  target : Option String := none
  scanType : Option String := none
  ports : Option String := none
  timeout : Option Nat := none
  domain : Option String := none
  recordType : Option String := none
  includeSubdomains : Option Bool := none
  includeWhois : Option Bool := none
  includeDNS : Option Bool := none
deriving Repr, DecidableEq

inductive RiskLevel where
  | low
  | medium
  | high
deriving Repr, DecidableEq

/-- `ToolsService.assessNmapRisk`: starts at `low`, escalates to `medium`
for `syn`/`udp`/`service` scan types, and finally to `high` whenever the
target is outside the allow-list (overriding the earlier assignments). -/
def assessNmapRisk (options : ToolArgs) : RiskLevel :=
  let risk := RiskLevel.low
  let risk := if options.scanType == some "syn" || options.scanType == some "udp" then
    RiskLevel.medium else risk
  let risk := if options.scanType == some "service" then RiskLevel.medium else risk
  let risk := if !isTargetAllowed (jsString options.target) then RiskLevel.high else risk
  risk

/-- `ToolsService.assessRiskLevel`: dispatches on the tool name — nmap uses
`assessNmapRisk`, the three intel/lookup tools are fixed `low`, and an
unknown tool name defaults to `high`. -/
def assessRiskLevel (toolName : String) (args : ToolArgs) : RiskLevel :=
  if toolName == "nmap" then assessNmapRisk args
  else if toolName == "domain_intel" || toolName == "whois" || toolName == "dns_lookup" then
    RiskLevel.low
  else RiskLevel.high

/-! ## Dotted-quad IPv4 literals (specification-side)

To state “no public IPv4 literal is ever allowed” we need the decimal
rendering of a dotted quad.  `octetChars` is the decimal digit string of
one octet (exact for every value below 1000, in particular for every
octet 0–255). -/

def digitChar (n : Nat) : Char := Char.ofNat (48 + n)

def octetChars (n : Nat) : List Char :=
  if n < 10 then [digitChar n]
  else if n < 100 then [digitChar (n / 10), digitChar (n % 10)]
  else [digitChar (n / 100), digitChar (n / 10 % 10), digitChar (n % 10)]

def ipChars (a b c d : Nat) : List Char :=
  octetChars a ++ '.' :: octetChars b ++ '.' :: octetChars c ++ '.' :: octetChars d

def ipString (a b c d : Nat) : String := String.mk (ipChars a b c d)

/-- The private/loopback sets named by the specification: `127.0.0.1`,
`10.0.0.0/8`, `192.168.0.0/16`, `172.16.0.0/12`. -/
def isPrivateOrLoopback (a b c d : Nat) : Prop :=
  (a = 127 ∧ b = 0 ∧ c = 0 ∧ d = 1) ∨ a = 10 ∨ (a = 192 ∧ b = 168) ∨
  (a = 172 ∧ 16 ≤ b ∧ b ≤ 31)

instance (a b c d : Nat) : Decidable (isPrivateOrLoopback a b c d) := by
  unfold isPrivateOrLoopback; infer_instance

/-! ## Command Runner (`ToolsService.executeCommand`)

`executeCommand` wraps `spawn` in a promise: it accumulates stdout chunks,
rejects the moment accumulated output exceeds `maxOutputSize`, resolves at
the child's `close` event with `exitCode = code || 0`, and rejects at the
child's `error` event.  The `timeout` option is forwarded to `spawn`,
whose runtime kills the child on expiry; the killed child then emits
`close` with a `null` exit code.  We model the child's behaviour as the
ordered list of events it emits and the promise as settling at the first
settling event. -/

structure CmdResult where
  stdout : String
  stderr : String
  exitCode : Int
deriving Repr, DecidableEq

/-- One event emitted by the spawned child: a stdout chunk, a stderr
chunk, the `close` event carrying the exit code (`none` models the
JavaScript `null` code of a killed child — in particular a child killed by
the `spawn` `timeout` option on expiry), or the `error` event. -/
inductive SpawnEvent where
  | stdoutData (chunk : String)
  | stderrData (chunk : String)
  | close (code : Option Int)
  | errored (msg : String)
deriving Repr, DecidableEq

/-- The promise body of `executeCommand`, folded over the child's events
with the accumulated stdout, stderr and output size.  `none` means the
promise never settles. -/
def runEvents (maxSize : Nat) (stdout stderr : String) (outputSize : Nat) :
    List SpawnEvent → Option (Except String CmdResult)
  | [] => none
  | ev :: rest =>
    match ev with
    | .stdoutData chunk =>
      let outputSize := outputSize + chunk.length
      if outputSize > maxSize then some (.error "Output size limit exceeded")
      else runEvents maxSize (stdout ++ chunk) stderr outputSize rest
    | .stderrData chunk => runEvents maxSize stdout (stderr ++ chunk) outputSize rest
    | .close code => some (.ok { stdout := stdout, stderr := stderr, exitCode := code.getD 0 })
    | .errored msg => some (.error msg)

/-- `ToolsService.executeCommand`: `maxOutputSize` defaults to 1 MiB; the
`timeout` option (defaulting to 30000) only configures the spawn runtime
and does not appear in the promise logic. -/
def executeCommand (maxOutputSize : Option Nat) (events : List SpawnEvent) :
    Option (Except String CmdResult) :=
  runEvents (maxOutputSize.getD (1024 * 1024)) "" "" 0 events

/-! ## Tool adapters and `executeTool`

The adapters call `executeCommand`; one call's outcome (resolution or
rejection message) is supplied by an environment mapping the command name
and argument list to an `Except`.  The runner options the adapters pass
(timeouts, output caps) configure that call and are absorbed into the
environment. -/

def CmdEnv := String → List String → Except String CmdResult

/-- The `switch (options.scanType)` of `ToolsService.buildNmapArgs`
(no default case: an unrecognized scan type adds no flag). -/
def scanTypeFlags (scanType : Option String) : List String :=
  if scanType == some "ping" then ["-sn"]
  else if scanType == some "tcp" then ["-sT"]
  else if scanType == some "syn" then ["-sS"]
  else if scanType == some "udp" then ["-sU"]
  else if scanType == some "service" then ["-sV"]
  else []

/-- The port specification of `buildNmapArgs`: `if (options.ports)` is a
JavaScript truthiness test, so an absent or empty `ports` falls back to
`--top-ports 100` and any other caller string is passed through after
`-p`. -/
def portFlags (ports : Option String) : List String :=
  match ports with
  | some p => if p == "" then ["--top-ports", "100"] else ["-p", p]
  | none => ["--top-ports", "100"]

/-- `ToolsService.buildNmapArgs`: timing/rate/retry restrictions, the scan
type flag, the port specification, XML output and the target. -/
def buildNmapArgs (options : ToolArgs) : List String :=
  ["-T2", "--max-rate", "100", "--max-retries", "1"] ++
  scanTypeFlags options.scanType ++
  portFlags options.ports ++
  ["-oX", "-"] ++
  [jsString options.target]

structure DnsResult where
  domain : String
  recordType : String
  records : List String
deriving Repr, DecidableEq

instance {ε α : Type} [DecidableEq ε] [DecidableEq α] : DecidableEq (Except ε α) := fun x y =>
  match x, y with
  | .error a, .error b =>
    if h : a = b then isTrue (h ▸ rfl) else isFalse (fun hh => h (Except.error.inj hh))
  | .ok a, .ok b =>
    if h : a = b then isTrue (h ▸ rfl) else isFalse (fun hh => h (Except.ok.inj hh))
  | .error _, .ok _ => isFalse (fun hh => Except.noConfusion hh)
  | .ok _, .error _ => isFalse (fun hh => Except.noConfusion hh)

/-- Structured tool outputs.  The raw-output parsers (`parseNmapOutput`,
`parseWhoisOutput`) are pure output-shaping functions of the captured
stdout; no claim depends on the parsed shape, so the parsed values are
represented by constructors carrying the stdout they were parsed from. -/
inductive ToolData where
  | nmapParsed (stdoutXml : String)
  | dns (r : DnsResult)
  | whoisParsed (raw : String)
  | intel (domain : String) (dns : Option (Except String DnsResult))
      (whois : Option (Except String String))
      (subdomains : Option (List (String × List String)))
deriving Repr, DecidableEq

/-- `ToolsService.executeDNSLookup`: one `dig +short` query; splits the
trimmed stdout into nonempty lines. -/
def executeDNSLookup (env : CmdEnv) (domain recordType : String) : Except String DnsResult := do
  let result ← env "dig" ["+short", domain, recordType]
  return { domain := domain, recordType := recordType,
           records := (result.stdout.trim.splitOn "\n").filter (fun line => 0 < line.length) }

/-- `ToolsService.executeWhois`: one `whois` call; `parseWhoisOutput`
keeps the raw text (represented here by the stdout itself). -/
def executeWhois (env : CmdEnv) (domain : String) : Except String String :=
  (env "whois" [domain]).map (fun r => r.stdout)

def commonSubdomains : List String :=
  ["www", "mail", "ftp", "admin", "test", "dev", "staging", "api",
   "blog", "shop", "support", "portal", "secure", "vpn"]

/-- `ToolsService.enumerateSubdomains`: one DNS lookup per fixed candidate
prefix, keeping candidates that resolve; per-candidate errors are skipped. -/
def enumerateSubdomains (env : CmdEnv) (domain : String) : List (String × List String) :=
  commonSubdomains.foldl (fun acc sub =>
    let fullDomain := sub ++ "." ++ domain
    match executeDNSLookup env fullDomain "A" with
    | .ok r => if 0 < r.records.length then acc ++ [(fullDomain, r.records)] else acc
    | .error _ => acc) []

/-- `ToolsService.executeNmap`: validates the target against the policy
guard before building arguments or invoking the runner; on violation it
throws (models `throw new Error(...)`) without consulting the runner. -/
def executeNmap (env : CmdEnv) (options : ToolArgs) : Except String ToolData :=
  if !isTargetAllowed (jsString options.target) then
    .error "Target not allowed. Only local/private networks are permitted."
  else do
    let args := buildNmapArgs options
    let result ← env "nmap" args
    return .nmapParsed result.stdout

/-- `ToolsService.executeDomainIntel`: optional DNS, WHOIS and passive
subdomain parts; each part's own failure is caught and recorded in the
corresponding field, so the whole call never throws. -/
def executeDomainIntel (env : CmdEnv) (options : ToolArgs) : ToolData :=
  let domain := jsString options.domain
  ToolData.intel domain
    (if options.includeDNS == some false then none
     else some (executeDNSLookup env domain "A"))
    (if options.includeWhois == some true then some (executeWhois env domain) else none)
    (if options.includeSubdomains == some true then some (enumerateSubdomains env domain)
     else none)

/-- The `try` body of `ToolsService.executeTool`: the `switch` dispatch on
the tool name, producing the result and the risk level, or throwing. -/
def executeToolCore (env : CmdEnv) (toolName : String) (args : ToolArgs) :
    Except String (ToolData × RiskLevel) :=
  if toolName == "nmap" then
    (executeNmap env args).map (fun d => (d, assessNmapRisk args))
  else if toolName == "domain_intel" then
    .ok (executeDomainIntel env args, RiskLevel.low)
  else if toolName == "whois" then
    (executeWhois env (jsString args.domain)).map (fun raw => (.whoisParsed raw, RiskLevel.low))
  else if toolName == "dns_lookup" then
    (executeDNSLookup env (jsString args.domain) (args.recordType.getD "A")).map
      (fun r => (.dns r, RiskLevel.low))
  else .error ("Unknown tool: " ++ toolName)

structure AuditLog where
  command : String
  arguments : ToolArgs
  result : Except String ToolData
deriving Repr, DecidableEq

/-- The return value of `ToolsService.executeTool` (the wall-clock
`executionTime` measurement is omitted: no claim depends on it). -/
structure ToolResult where
  success : Bool
  data : Option ToolData
  error : Option String := none
  riskLevel : RiskLevel
  auditLog : AuditLog
deriving Repr, DecidableEq

/-- `ToolsService.executeTool`: wraps the dispatch in `try`/`catch` and
always returns a `ToolResult` — success with the data, or the caught error
with `success = false`, `riskLevel = high` and the error recorded in the
audit log. -/
def executeTool (env : CmdEnv) (toolName : String) (args : ToolArgs) : ToolResult :=
  match executeToolCore env toolName args with
  | .ok (result, riskLevel) =>
    { success := true, data := some result, error := none, riskLevel := riskLevel,
      auditLog := { command := toolName, arguments := args, result := .ok result } }
  | .error e =>
    { success := false, data := none, error := some e, riskLevel := RiskLevel.high,
      auditLog := { command := toolName, arguments := args, result := .error e } }

/-! ## Approval gate and ToolRun ledger

The two Express routes are the only code that creates or mutates
`tool_runs` rows.  We model a row, the storage operations the routes use
(`createToolRun`, `getToolRun`, `updateToolRun`), and each route as a pure
function of the current store, the fresh row id (the generated UUID), the
current time (`new Date()`), and the command environment.  Besides the
final store, a route returns the HTTP response and the ordered list of
persistence operations it performed, from which the observable sequence of
persisted status values of a run is read off. -/

inductive RunStatus where
  | pending
  | approved
  | running
  | completed
  | failed
deriving Repr, DecidableEq

/-- One `tool_runs` row (the columns the routes read or write; unset
columns take the schema defaults). -/
structure ToolRun where
  id : Nat
  sessionId : String
  toolName : String
  arguments : ToolArgs
  status : RunStatus
  riskLevel : RiskLevel
  approvalRequired : Bool
  approvedBy : Option String := none
  approvedAt : Option Nat := none
  executedAt : Option Nat := none
  completedAt : Option Nat := none
  result : Option ToolResult := none
  errorMessage : Option String := none
deriving Repr, DecidableEq

/-- A `Partial<ToolRun>` as passed to `storage.updateToolRun`; a `none`
field is simply not part of the update. -/
structure ToolRunUpdate where
  status : Option RunStatus := none
  result : Option ToolResult := none
  riskLevel : Option RiskLevel := none
  approvalRequired : Option Bool := none
  approvedBy : Option String := none
  approvedAt : Option Nat := none
  executedAt : Option Nat := none
  completedAt : Option Nat := none
  errorMessage : Option String := none
deriving Repr, DecidableEq

def updField {α : Type} (new cur : Option α) : Option α :=
  match new with
  | some x => some x
  | none => cur

def applyUpdate (r : ToolRun) (u : ToolRunUpdate) : ToolRun :=
  { r with
    status := u.status.getD r.status,
    result := updField u.result r.result,
    riskLevel := u.riskLevel.getD r.riskLevel,
    approvalRequired := u.approvalRequired.getD r.approvalRequired,
    approvedBy := updField u.approvedBy r.approvedBy,
    approvedAt := updField u.approvedAt r.approvedAt,
    executedAt := updField u.executedAt r.executedAt,
    completedAt := updField u.completedAt r.completedAt,
    errorMessage := updField u.errorMessage r.errorMessage }

abbrev Store := List ToolRun

def getToolRun (s : Store) (id : Nat) : Option ToolRun :=
  s.find? (fun r => r.id == id)

def createToolRun (s : Store) (r : ToolRun) : Store := s ++ [r]

def updateToolRun (s : Store) (id : Nat) (u : ToolRunUpdate) : Store :=
  s.map (fun r => if r.id == id then applyUpdate r u else r)

/-- A persistence operation performed by a route, in order. -/
inductive StoreOp where
  | create (r : ToolRun)
  | update (id : Nat) (u : ToolRunUpdate)
deriving Repr, DecidableEq

/-- The body validated by `toolExecutionSchema` (`requiresApproval` is an
optional boolean). -/
structure ToolExecutionRequest where
  toolName : String
  arguments : ToolArgs
  sessionId : String
  requiresApproval : Option Bool := none
deriving Repr, DecidableEq

/-- The parts of the HTTP response the claims are about: the status code
and, when present, the returned `ToolResult` / `requiresApproval` flag /
error message. -/
structure RouteResponse where
  code : Nat
  result : Option ToolResult := none
  requiresApproval : Option Bool := none
  message : Option String := none
deriving Repr, DecidableEq

structure RouteTrace where
  store : Store
  response : RouteResponse
  ops : List StoreOp
deriving Repr, DecidableEq

/-- The row the execute route passes to `storage.createToolRun`: status
from the caller's `requiresApproval` flag (an absent flag is falsy),
`approvalRequired = data.requiresApproval || false`, and the risk level
from `toolsService.assessRiskLevel`. -/
def createdRun (newId : Nat) (data : ToolExecutionRequest) : ToolRun :=
  { id := newId,
    sessionId := data.sessionId,
    toolName := data.toolName,
    arguments := data.arguments,
    status := if data.requiresApproval.getD false then RunStatus.pending else RunStatus.running,
    approvalRequired := data.requiresApproval.getD false,
    riskLevel := assessRiskLevel data.toolName data.arguments }

/-- `POST /api/protected/tools/execute` (request already authenticated and
schema-validated).  Creates the run — `pending` when approval was
requested, otherwise `running` — and, when no approval was requested,
executes the tool at once and finalizes the row as `completed`. -/
def executeRoute (env : CmdEnv) (store : Store) (newId : Nat) (now : Nat)
    (data : ToolExecutionRequest) : RouteTrace :=
  let requiresApproval := data.requiresApproval.getD false
  let toolRun : ToolRun := createdRun newId data
  let store1 := createToolRun store toolRun
  if !requiresApproval then
    let result := executeTool env data.toolName data.arguments
    let u : ToolRunUpdate := { status := some RunStatus.completed, result := some result,
                               executedAt := some now, completedAt := some now }
    { store := updateToolRun store1 newId u,
      response := { code := 200, result := some result, requiresApproval := some false },
      ops := [StoreOp.create toolRun, StoreOp.update newId u] }
  else
    { store := store1,
      response := { code := 200, requiresApproval := some true },
      ops := [StoreOp.create toolRun] }

/-- `POST /api/protected/tools/:id/approve` (request already
authenticated).  Responds 404 when the run does not exist; otherwise
executes the run's tool — without inspecting the current status — and
updates the row to `completed` with the approver identity and timestamps. -/
def approveRoute (env : CmdEnv) (store : Store) (now : Nat) (userId : String)
    (toolRunId : Nat) : RouteTrace :=
  match getToolRun store toolRunId with
  | none =>
    { store := store,
      response := { code := 404, message := some "Tool run not found" },
      ops := [] }
  | some toolRun =>
    let result := executeTool env toolRun.toolName toolRun.arguments
    let u : ToolRunUpdate := { status := some RunStatus.completed, result := some result,
                               approvedBy := some userId, approvedAt := some now,
                               executedAt := some now, completedAt := some now }
    { store := updateToolRun store toolRunId u,
      response := { code := 200, result := some result },
      ops := [StoreOp.update toolRunId u] }

/-- The persisted status values of run `id`, in write order, over a list
of persistence operations. -/
def statusHistory (id : Nat) (ops : List StoreOp) : List RunStatus :=
  ops.foldl (fun acc op =>
    match op with
    | .create r => if r.id == id then acc ++ [r.status] else acc
    | .update i u =>
      if i == id then
        match u.status with
        | some s => acc ++ [s]
        | none => acc
      else acc) []

/-! ### Concrete fixtures used by counterexamples and witnesses -/

/-- A command environment in which every spawn fails. -/
def noExec : CmdEnv := fun _ _ => Except.error "spawn failure"

/-- A command environment in which `whois` resolves with fixed output. -/
def demoWhoisEnv : CmdEnv := fun cmd _ =>
  if cmd == "whois" then Except.ok { stdout := "Domain Name: EXAMPLE.COM", stderr := "", exitCode := 0 }
  else Except.error "unexpected command"

/-- A run that already finished: `status = completed`, result present. -/
def demoCompletedRun : ToolRun :=
  { id := 1, sessionId := "s1", toolName := "whois",
    arguments := { domain := some "example.com" },
    status := RunStatus.completed, riskLevel := RiskLevel.low,
    approvalRequired := true,
    executedAt := some 10, completedAt := some 10,
    result := some (executeTool demoWhoisEnv "whois" { domain := some "example.com" }) }

/-- A run awaiting approval: `status = pending`. -/
def demoPendingRun : ToolRun :=
  { id := 2, sessionId := "s1", toolName := "whois",
    arguments := { domain := some "example.com" },
    status := RunStatus.pending, riskLevel := RiskLevel.low,
    approvalRequired := true }

/-- A scan request for the public address 8.8.8.8, no approval flag. -/
def reqScan8888 : ToolExecutionRequest :=
  { toolName := "nmap",
    arguments := { target := some "8.8.8.8", scanType := some "ping" },
    sessionId := "s1" }

/-- A request for an unknown tool name, no approval flag. -/
def reqBadTool : ToolExecutionRequest :=
  { toolName := "badtool", arguments := {}, sessionId := "s1" }

/-- The update the approve route writes for `demoCompletedRun` at time 3
with approver `"a"`. -/
def demoApproveUpdate : ToolRunUpdate :=
  { status := some RunStatus.completed,
    result := some (executeTool demoWhoisEnv "whois" { domain := some "example.com" }),
    approvedBy := some "a", approvedAt := some 3,
    executedAt := some 3, completedAt := some 3 }

/-- Scan arguments requesting the full port range. -/
def optsFullRange : ToolArgs :=
  { target := some "10.0.0.5", scanType := some "tcp", ports := some "1-65535" }

/-- A `whois` request whose argument record carries a `target` outside the
allow-list (the schema accepts any record). -/
def reqWhoisBadTarget : ToolExecutionRequest :=
  { toolName := "whois",
    arguments := { target := some "8.8.8.8", domain := some "example.com" },
    sessionId := "s1" }

/-! ### Facts about decimal digit characters and octet strings -/

lemma digitChar_ne_dot : ∀ k < 10, digitChar k ≠ '.' := by decide

lemma octetChars_ne_nil (n : Nat) : octetChars n ≠ [] := by
  unfold octetChars
  split
  · simp
  · split <;> simp

lemma octetChars_shape (n : Nat) (hn : n < 256) :
    (n < 10 ∧ octetChars n = [digitChar n]) ∨
    (10 ≤ n ∧ n < 100 ∧ octetChars n = [digitChar (n / 10), digitChar (n % 10)]) ∨
    (100 ≤ n ∧ octetChars n = [digitChar (n / 100), digitChar (n / 10 % 10), digitChar (n % 10)]) := by
  by_cases h1 : n < 10
  · exact Or.inl ⟨h1, by simp [octetChars, h1]⟩
  · by_cases h2 : n < 100
    · exact Or.inr (Or.inl ⟨by omega, h2, by simp [octetChars, h1, h2]⟩)
    · exact Or.inr (Or.inr ⟨by omega, by simp [octetChars, h1, h2]⟩)

lemma octetChars_no_dot (n : Nat) (hn : n < 256) : '.' ∉ octetChars n := by
  rcases octetChars_shape n hn with ⟨h, he⟩ | ⟨h, h', he⟩ | ⟨h, he⟩ <;> rw [he] <;> simp
  · exact fun hh => digitChar_ne_dot n h hh.symm
  · exact ⟨fun hh => digitChar_ne_dot (n / 10) (by omega) hh.symm,
      fun hh => digitChar_ne_dot (n % 10) (by omega) hh.symm⟩
  · refine ⟨fun hh => digitChar_ne_dot (n / 100) (by omega) hh.symm,
      fun hh => digitChar_ne_dot (n / 10 % 10) (by omega) hh.symm,
      fun hh => digitChar_ne_dot (n % 10) (by omega) hh.symm⟩

/-- Decoding an octet string: equality with a fixed digit list pins the octet. -/
lemma octet_eq_10 : ∀ a < 256, octetChars a = ['1', '0'] → a = 10 := by decide

lemma octet_eq_192 : ∀ a < 256, octetChars a = ['1', '9', '2'] → a = 192 := by decide

lemma octet_eq_168 : ∀ a < 256, octetChars a = ['1', '6', '8'] → a = 168 := by decide

lemma octet_eq_172 : ∀ a < 256, octetChars a = ['1', '7', '2'] → a = 172 := by decide

lemma octet_eq_127 : ∀ a < 256, octetChars a = ['1', '2', '7'] → a = 127 := by decide

lemma octet_eq_0 : ∀ a < 256, octetChars a = ['0'] → a = 0 := by decide

lemma octet_eq_1 : ∀ a < 256, octetChars a = ['1'] → a = 1 := by decide

lemma class172_dot (c1 : Char) : class172 c1 '.' = false := by
  have h6 : (('.' : Char) == '6') = false := by decide
  have h7 : (('.' : Char) == '7') = false := by decide
  have h8 : (('.' : Char) == '8') = false := by decide
  have h9 : (('.' : Char) == '9') = false := by decide
  have hd : ('.' : Char).isDigit = false := by decide
  have h0 : (('.' : Char) == '0') = false := by decide
  have h1 : (('.' : Char) == '1') = false := by decide
  simp [class172, h6, h7, h8, h9, hd, h0, h1]

lemma class172_digits :
    ∀ x < 10, ∀ y < 10, class172 (digitChar x) (digitChar y) = true →
      16 ≤ 10 * x + y ∧ 10 * x + y ≤ 31 := by decide

/-! ### Unfolding lemmas used to split dotted quads into components -/

lemma ipChars_eq (a b c d : Nat) :
    ipChars a b c d =
      octetChars a ++ '.' :: (octetChars b ++ '.' :: (octetChars c ++ '.' :: octetChars d)) := by
  simp [ipChars]

lemma matches192168_eq (l : List Char) :
    matches192168 l =
      startsWithChars (['1', '9', '2'] ++ '.' :: (['1', '6', '8'] ++ '.' :: [])) l := rfl

lemma matches10_eq (l : List Char) :
    matches10 l = startsWithChars (['1', '0'] ++ '.' :: []) l := rfl

lemma pat172_eq : (['1', '7', '2', '.'] : List Char) = ['1', '7', '2'] ++ '.' :: [] := rfl

/-! ### Splitting a dot-separated pattern match into components -/

/-- If a dotted pattern `s ++ "." ++ P` is a prefix of `A ++ "." ++ L` and
neither `s` nor `A` contains a dot, the first components must coincide
exactly and the rest of the pattern matches on `L`. -/
lemma startsWith_component : ∀ s A P L : List Char,
    '.' ∉ s → '.' ∉ A →
    startsWithChars (s ++ '.' :: P) (A ++ '.' :: L) = true →
    A = s ∧ startsWithChars P L = true := by
  intro s
  induction s with
  | nil =>
    intro A P L _ hA h
    cases A with
    | nil => exact ⟨rfl, by simpa [startsWithChars] using h⟩
    | cons a as =>
      simp only [List.nil_append, List.cons_append, startsWithChars,
        Bool.and_eq_true, beq_iff_eq] at h
      exact absurd (h.1 ▸ List.mem_cons_self '.' as) hA
  | cons c cs ih =>
    intro A P L hs hA h
    cases A with
    | nil =>
      simp only [List.nil_append, List.cons_append, startsWithChars,
        Bool.and_eq_true, beq_iff_eq] at h
      exact absurd (h.1 ▸ List.mem_cons_self c cs) hs
    | cons a as =>
      simp only [List.cons_append, startsWithChars, Bool.and_eq_true, beq_iff_eq] at h
      have hs' : '.' ∉ cs := fun hm => hs (List.mem_cons_of_mem c hm)
      have hA' : '.' ∉ as := fun hm => hA (List.mem_cons_of_mem a hm)
      obtain ⟨hAs, hP⟩ := ih as P L hs' hA' h.2
      exact ⟨by rw [hAs, h.1], hP⟩

/-- Equality version of the component split. -/
lemma append_dot_inj : ∀ s A P L : List Char,
    '.' ∉ s → '.' ∉ A →
    A ++ '.' :: L = s ++ '.' :: P →
    A = s ∧ L = P := by
  intro s
  induction s with
  | nil =>
    intro A P L _ hA h
    cases A with
    | nil => simpa using h
    | cons a as =>
      simp only [List.cons_append, List.nil_append, List.cons_eq_cons] at h
      exact absurd (h.1 ▸ List.mem_cons_self '.' as) hA
  | cons c cs ih =>
    intro A P L hs hA h
    cases A with
    | nil =>
      simp only [List.nil_append, List.cons_append, List.cons_eq_cons] at h
      exact absurd (h.1.symm ▸ List.mem_cons_self c cs) hs
    | cons a as =>
      simp only [List.cons_append, List.cons_eq_cons] at h
      have hs' : '.' ∉ cs := fun hm => hs (List.mem_cons_of_mem c hm)
      have hA' : '.' ∉ as := fun hm => hA (List.mem_cons_of_mem a hm)
      obtain ⟨hAs, hL⟩ := ih as P L hs' hA' h.2
      exact ⟨by rw [hAs, h.1], hL⟩

/-! ## C5: characterization of the target allow-list -/

/-- C5: `isTargetAllowed t` is true iff `t` equals `127.0.0.1` or
`localhost` or matches one of the three private-range regexes; and no
public IPv4 literal is ever allowed: every dotted-quad literal accepted by
the guard is the loopback address or lies in `10.0.0.0/8`,
`192.168.0.0/16` or `172.16.0.0/12`.  The guard is a pure function of the
target string, hence deterministic. -/
theorem c5_target_guard_allowlist :
    (∀ t : String, isTargetAllowed t = true ↔
      (t = "127.0.0.1" ∨ t = "localhost" ∨ matches192168 t.data = true ∨
        matches10 t.data = true ∨ matches172 t.data = true)) ∧
    (∀ a b c d : Nat, a < 256 → b < 256 → c < 256 → d < 256 →
      isTargetAllowed (ipString a b c d) = true → isPrivateOrLoopback a b c d) := by
  constructor
  · intro t
    simp only [isTargetAllowed, Bool.or_eq_true, beq_iff_eq]
    tauto
  · intro a b c d ha hb hc hd h
    have hdata : (ipString a b c d).data = ipChars a b c d := rfl
    simp only [isTargetAllowed, hdata, Bool.or_eq_true] at h
    rcases h with ((((h | h) | h) | h) | h)
    · -- equality with the literal "127.0.0.1"
      rw [beq_iff_eq] at h
      have hlist : ipChars a b c d = ("127.0.0.1" : String).data := by
        rw [← hdata, h]
      have hsplit : ("127.0.0.1" : String).data =
          ['1', '2', '7'] ++ '.' :: (['0'] ++ '.' :: (['0'] ++ '.' :: ['1'])) := by decide
      rw [ipChars_eq] at hlist
      have h1 := hlist.trans hsplit
      obtain ⟨ha1, h2⟩ := append_dot_inj ['1', '2', '7'] (octetChars a)
        (['0'] ++ '.' :: (['0'] ++ '.' :: ['1']))
        (octetChars b ++ '.' :: (octetChars c ++ '.' :: octetChars d))
        (by decide) (octetChars_no_dot a ha) h1
      obtain ⟨hb1, h3⟩ := append_dot_inj ['0'] (octetChars b)
        (['0'] ++ '.' :: ['1']) (octetChars c ++ '.' :: octetChars d)
        (by decide) (octetChars_no_dot b hb) h2
      obtain ⟨hc1, hd1⟩ := append_dot_inj ['0'] (octetChars c)
        ['1'] (octetChars d)
        (by decide) (octetChars_no_dot c hc) h3
      exact Or.inl ⟨octet_eq_127 a ha ha1, octet_eq_0 b hb hb1,
        octet_eq_0 c hc hc1, octet_eq_1 d hd hd1⟩
    · -- equality with the literal "localhost" is impossible: the quad has dots
      rw [beq_iff_eq] at h
      have hdot : '.' ∈ ipChars a b c d := by
        rw [ipChars_eq]; simp
      rw [← hdata, h] at hdot
      exact absurd hdot (by decide)
    · -- the /^192\.168\./ pattern
      rw [matches192168_eq, ipChars_eq] at h
      obtain ⟨ha1, h2⟩ := startsWith_component ['1', '9', '2'] (octetChars a)
        (['1', '6', '8'] ++ '.' :: [])
        (octetChars b ++ '.' :: (octetChars c ++ '.' :: octetChars d))
        (by decide) (octetChars_no_dot a ha) h
      obtain ⟨hb1, _⟩ := startsWith_component ['1', '6', '8'] (octetChars b)
        [] (octetChars c ++ '.' :: octetChars d)
        (by decide) (octetChars_no_dot b hb) h2
      exact Or.inr (Or.inr (Or.inl ⟨octet_eq_192 a ha ha1, octet_eq_168 b hb hb1⟩))
    · -- the /^10\./ pattern
      rw [matches10_eq, ipChars_eq] at h
      obtain ⟨ha1, _⟩ := startsWith_component ['1', '0'] (octetChars a)
        [] (octetChars b ++ '.' :: (octetChars c ++ '.' :: octetChars d))
        (by decide) (octetChars_no_dot a ha) h
      exact Or.inr (Or.inl (octet_eq_10 a ha ha1))
    · -- the /^172\.(1[6-9]|2[0-9]|3[01])\./ pattern
      simp only [matches172, Bool.and_eq_true] at h
      obtain ⟨hpre, hcls⟩ := h
      rw [pat172_eq, ipChars_eq] at hpre
      obtain ⟨ha1, _⟩ := startsWith_component ['1', '7', '2'] (octetChars a)
        [] (octetChars b ++ '.' :: (octetChars c ++ '.' :: octetChars d))
        (by decide) (octetChars_no_dot a ha) hpre
      have ha2 : a = 172 := octet_eq_172 a ha ha1
      have hrest : (ipChars a b c d).drop 4 =
          octetChars b ++ '.' :: (octetChars c ++ '.' :: octetChars d) := by
        rw [ipChars_eq, ha1]
        rfl
      rw [hrest] at hcls
      rcases octetChars_shape b hb with ⟨hblt, hbe⟩ | ⟨hbl, hbu, hbe⟩ | ⟨hbl, hbe⟩ <;>
        rw [hbe] at hcls
      · -- a one-digit second octet cannot satisfy the two-digit class
        rcases hR : octetChars c with _ | ⟨r0, rs⟩
        · exact absurd hR (octetChars_ne_nil c)
        · rw [hR] at hcls
          simp only [List.cons_append, List.nil_append, tail172,
            class172_dot, Bool.false_and] at hcls
          exact absurd hcls (by decide)
      · -- a two-digit second octet: the class forces 16 ≤ b ≤ 31
        simp only [List.cons_append, List.nil_append, tail172, Bool.and_eq_true,
          beq_iff_eq] at hcls
        have hcl := class172_digits (b / 10) (by omega) (b % 10) (by omega) hcls.1
        have hbv : 10 * (b / 10) + b % 10 = b := by omega
        rw [hbv] at hcl
        exact Or.inr (Or.inr (Or.inr ⟨ha2, hcl.1, hcl.2⟩))
      · -- a three-digit second octet: the third character is a digit, not a dot
        simp only [List.cons_append, List.nil_append, tail172, Bool.and_eq_true,
          beq_iff_eq] at hcls
        exact absurd hcls.2 (digitChar_ne_dot (b % 10) (by omega))

/-- Witness for C5 at the concrete private address `10.0.0.1`. -/
theorem c5_target_guard_allowlist_witness : isPrivateOrLoopback 10 0 0 1 :=
  c5_target_guard_allowlist.2 10 0 0 1 (by decide) (by decide) (by decide) (by decide)
    (by decide)

/-! ## C1: the approve route checks existence but not the current status -/

/-- C1 (code-bug demonstration): the NotFound half of the claim holds —
approving a nonexistent run responds 404 and performs no store operation —
but the conflict half does not: approving the already-`completed` demo run
responds 200, re-executes the tool (the fresh `executeTool` result is
returned), and overwrites the run's approval and execution timestamps. -/
theorem c1_approve_missing_conflict_check :
    (∀ (env : CmdEnv) (store : Store) (now : Nat) (uid : String) (id : Nat),
      getToolRun store id = none →
      (approveRoute env store now uid id).response.code = 404 ∧
      (approveRoute env store now uid id).ops = []) ∧
    ((approveRoute demoWhoisEnv [demoCompletedRun] 99 "approver" 1).response =
      { code := 200,
        result := some (executeTool demoWhoisEnv "whois" { domain := some "example.com" }) } ∧
     getToolRun (approveRoute demoWhoisEnv [demoCompletedRun] 99 "approver" 1).store 1 =
       some { demoCompletedRun with
              approvedBy := some "approver", approvedAt := some 99,
              executedAt := some 99, completedAt := some 99 } ∧
     getToolRun (approveRoute demoWhoisEnv [demoCompletedRun] 99 "approver" 1).store 1 ≠
       some demoCompletedRun) := by
  constructor
  · intro env store now uid id h
    simp [approveRoute, h]
  · refine ⟨by decide, by decide, by decide⟩

/-- Witness for C1's NotFound half on the empty store. -/
theorem c1_approve_missing_conflict_check_witness :
    (approveRoute noExec [] 0 "u" 7).response.code = 404 ∧
    (approveRoute noExec [] 0 "u" 7).ops = [] :=
  c1_approve_missing_conflict_check.1 noExec [] 0 "u" 7 (by decide)

/-! ## C2: `approvalRequired` comes from the caller's flag only -/

/-- C2 counterexample: a scan of the public address 8.8.8.8 — risk tier
`high` — submitted without the caller's approval flag is created with
`approvalRequired = false` (and status `running`): the risk tier is not
consulted when the flag is derived. -/
theorem c2_counterexample :
    assessRiskLevel "nmap" reqScan8888.arguments = RiskLevel.high ∧
    (getToolRun (executeRoute noExec [] 1 5 reqScan8888).store 1).map
      (fun r => (r.approvalRequired, r.riskLevel)) =
      some (false, RiskLevel.high) := by decide

/-- C2 (amended): the created run's `approvalRequired` equals the caller's
`requiresApproval` flag (defaulting to false), independent of the risk
tier; and no update performed by either route ever touches
`approvalRequired`, so the flag never changes after creation. -/
theorem c2_approval_flag_caller_only :
    (∀ (env : CmdEnv) (store : Store) (newId now : Nat) (data : ToolExecutionRequest),
      (executeRoute env store newId now data).ops.head? =
        some (StoreOp.create (createdRun newId data)) ∧
      (createdRun newId data).approvalRequired = data.requiresApproval.getD false) ∧
    (∀ (env : CmdEnv) (store : Store) (newId now : Nat) (data : ToolExecutionRequest)
       (i : Nat) (u : ToolRunUpdate),
      StoreOp.update i u ∈ (executeRoute env store newId now data).ops →
      u.approvalRequired = none) ∧
    (∀ (env : CmdEnv) (store : Store) (now : Nat) (uid : String) (rid : Nat)
       (i : Nat) (u : ToolRunUpdate),
      StoreOp.update i u ∈ (approveRoute env store now uid rid).ops →
      u.approvalRequired = none) := by
  refine ⟨?_, ?_, ?_⟩
  · intro env store newId now data
    cases hgd : data.requiresApproval.getD false <;> simp [executeRoute, createdRun, hgd]
  · intro env store newId now data i u hmem
    cases hgd : data.requiresApproval.getD false <;> simp [executeRoute, hgd] at hmem
    obtain ⟨_, rfl⟩ := hmem
    rfl
  · intro env store now uid rid i u hmem
    cases hget : getToolRun store rid <;> simp [approveRoute, hget] at hmem
    obtain ⟨_, rfl⟩ := hmem
    rfl

/-- Witness for C2 on a concrete request. -/
theorem c2_approval_flag_caller_only_witness :
    (executeRoute noExec [] 1 5 reqScan8888).ops.head? =
      some (StoreOp.create (createdRun 1 reqScan8888)) ∧
    (createdRun 1 reqScan8888).approvalRequired = reqScan8888.requiresApproval.getD false :=
  c2_approval_flag_caller_only.1 noExec [] 1 5 reqScan8888

/-! ## C3: every terminal update writes `completed`, never `failed` -/

/-- C3 counterexample: the run for an unknown tool — whose execution fails
(`success = false`) — is finalized with status `completed` and with
`errorMessage` still unset. -/
theorem c3_counterexample :
    (executeTool noExec "badtool" ({} : ToolArgs)).success = false ∧
    (getToolRun (executeRoute noExec [] 1 5 reqBadTool).store 1).map
      (fun r => (r.status, r.errorMessage)) =
      some (RunStatus.completed, (none : Option String)) := by decide

/-- C3 (amended): both routes finalize every executed run with status
`completed` — adapter success and failure alike — storing the whole
`ToolResult` (whose own `success`, `error` and audit-log fields record a
failure) in `result` and setting `executedAt`/`completedAt`; the status
`failed` and the `errorMessage` column are never written. -/
theorem c3_terminal_updates_always_completed :
    (∀ (env : CmdEnv) (store : Store) (newId now : Nat) (data : ToolExecutionRequest)
       (i : Nat) (u : ToolRunUpdate),
      StoreOp.update i u ∈ (executeRoute env store newId now data).ops →
      u.status = some RunStatus.completed ∧ u.errorMessage = none ∧
      u.executedAt = some now ∧ u.completedAt = some now ∧
      u.result = some (executeTool env data.toolName data.arguments)) ∧
    (∀ (env : CmdEnv) (store : Store) (now : Nat) (uid : String) (rid : Nat)
       (i : Nat) (u : ToolRunUpdate),
      StoreOp.update i u ∈ (approveRoute env store now uid rid).ops →
      ∃ r, getToolRun store rid = some r ∧
        u.status = some RunStatus.completed ∧ u.errorMessage = none ∧
        u.executedAt = some now ∧ u.completedAt = some now ∧
        u.result = some (executeTool env r.toolName r.arguments)) := by
  constructor
  · intro env store newId now data i u hmem
    cases hgd : data.requiresApproval.getD false <;> simp [executeRoute, hgd] at hmem
    obtain ⟨_, rfl⟩ := hmem
    exact ⟨rfl, rfl, rfl, rfl, rfl⟩
  · intro env store now uid rid i u hmem
    cases hget : getToolRun store rid with
    | none => simp [approveRoute, hget] at hmem
    | some r =>
      simp [approveRoute, hget] at hmem
      obtain ⟨_, rfl⟩ := hmem
      exact ⟨r, rfl, rfl, rfl, rfl, rfl, rfl⟩

/-- Witness for C3 on the approve route over the demo store. -/
theorem c3_terminal_updates_always_completed_witness :
    ∃ r, getToolRun [demoCompletedRun] 1 = some r ∧
      demoApproveUpdate.status = some RunStatus.completed ∧
      demoApproveUpdate.errorMessage = none ∧
      demoApproveUpdate.executedAt = some 3 ∧
      demoApproveUpdate.completedAt = some 3 ∧
      demoApproveUpdate.result = some (executeTool demoWhoisEnv r.toolName r.arguments) :=
  c3_terminal_updates_always_completed.2 demoWhoisEnv [demoCompletedRun] 3 "a" 1 1
    demoApproveUpdate (by decide)

/-! ## C4: observable status sequences of the two routes -/

/-- C4 counterexample: approving the pending demo run moves it straight
from `pending` to `completed`; the only persisted status write is
`completed`, so the run is never observably `running` (nor `approved`). -/
theorem c4_counterexample :
    (getToolRun [demoPendingRun] 2).map (fun r => r.status) = some RunStatus.pending ∧
    statusHistory 2 (approveRoute demoWhoisEnv [demoPendingRun] 7 "approver" 2).ops =
      [RunStatus.completed] ∧
    (getToolRun (approveRoute demoWhoisEnv [demoPendingRun] 7 "approver" 2).store 2).map
      (fun r => r.status) = some RunStatus.completed := by decide

/-- C4 (amended): the persisted status sequence is `[running, completed]`
for an auto-executed run (created as `running`, never `pending`),
`[pending]` for a run awaiting approval, and `[completed]` for the approve
route — which therefore skips both `approved` and `running`. -/
theorem c4_status_histories :
    (∀ (env : CmdEnv) (store : Store) (newId now : Nat) (data : ToolExecutionRequest),
      statusHistory newId (executeRoute env store newId now data).ops =
        if data.requiresApproval.getD false then [RunStatus.pending]
        else [RunStatus.running, RunStatus.completed]) ∧
    (∀ (env : CmdEnv) (store : Store) (now : Nat) (uid : String) (rid : Nat) (r : ToolRun),
      getToolRun store rid = some r →
      statusHistory rid (approveRoute env store now uid rid).ops = [RunStatus.completed]) := by
  constructor
  · intro env store newId now data
    cases hgd : data.requiresApproval.getD false <;>
      simp [executeRoute, createdRun, statusHistory, hgd]
  · intro env store now uid rid r hget
    simp [approveRoute, hget, statusHistory]

/-- Witness for C4's approve-route history on the demo store. -/
theorem c4_status_histories_witness :
    statusHistory 1 (approveRoute demoWhoisEnv [demoCompletedRun] 99 "u" 1).ops =
      [RunStatus.completed] :=
  c4_status_histories.2 demoWhoisEnv [demoCompletedRun] 99 "u" 1 demoCompletedRun (by decide)

/-! ## C6: out-of-policy targets and the risk assessor -/

/-- C6 counterexample: the risk tier is tool-specific, not
tool-independent — a `whois` invocation whose argument record carries the
out-of-policy target `8.8.8.8` is assessed `low`, and the run the execute
route creates for it stores `riskLevel = low`. -/
theorem c6_counterexample :
    isTargetAllowed "8.8.8.8" = false ∧
    assessRiskLevel "whois" { target := some "8.8.8.8", domain := some "example.com" } =
      RiskLevel.low ∧
    RiskLevel.low ≠ RiskLevel.high ∧
    (getToolRun (executeRoute demoWhoisEnv [] 1 5 reqWhoisBadTarget).store 1).map
      (fun r => r.riskLevel) = some RiskLevel.low := by decide

/-- C6 (amended): for `nmap` invocations an out-of-policy target forces
`riskLevel = high` regardless of every other argument; the risk level is
stored on the run at creation from `assessRiskLevel` and no update of
either route ever touches it. -/
theorem c6_nmap_bad_target_forces_high :
    (∀ args : ToolArgs, isTargetAllowed (jsString args.target) = false →
      assessNmapRisk args = RiskLevel.high ∧ assessRiskLevel "nmap" args = RiskLevel.high) ∧
    (∀ (env : CmdEnv) (store : Store) (newId now : Nat) (data : ToolExecutionRequest),
      (executeRoute env store newId now data).ops.head? =
        some (StoreOp.create (createdRun newId data)) ∧
      (createdRun newId data).riskLevel = assessRiskLevel data.toolName data.arguments) ∧
    (∀ (env : CmdEnv) (store : Store) (newId now : Nat) (data : ToolExecutionRequest)
       (i : Nat) (u : ToolRunUpdate),
      StoreOp.update i u ∈ (executeRoute env store newId now data).ops →
      u.riskLevel = none) ∧
    (∀ (env : CmdEnv) (store : Store) (now : Nat) (uid : String) (rid : Nat)
       (i : Nat) (u : ToolRunUpdate),
      StoreOp.update i u ∈ (approveRoute env store now uid rid).ops →
      u.riskLevel = none) := by
  refine ⟨?_, ?_, ?_, ?_⟩
  · intro args h
    constructor
    · simp [assessNmapRisk, h]
    · simp [assessRiskLevel, assessNmapRisk, h]
  · intro env store newId now data
    cases hgd : data.requiresApproval.getD false <;>
      simp [executeRoute, createdRun, hgd]
  · intro env store newId now data i u hmem
    cases hgd : data.requiresApproval.getD false <;> simp [executeRoute, hgd] at hmem
    obtain ⟨_, rfl⟩ := hmem
    rfl
  · intro env store now uid rid i u hmem
    cases hget : getToolRun store rid <;> simp [approveRoute, hget] at hmem
    obtain ⟨_, rfl⟩ := hmem
    rfl

/-- Witness for C6 at the out-of-policy target `8.8.8.8`. -/
theorem c6_nmap_bad_target_forces_high_witness :
    assessNmapRisk { target := some "8.8.8.8" } = RiskLevel.high ∧
    assessRiskLevel "nmap" { target := some "8.8.8.8" } = RiskLevel.high :=
  c6_nmap_bad_target_forces_high.1 { target := some "8.8.8.8" } (by decide)

/-! ## C7: rejected scans never spawn, but the run is born `running` -/

/-- C7 counterexample: the scan of public `8.8.8.8` is rejected by the
guard, yet — submitted without the approval flag — its ToolRun is created
with status `running` and finalized `completed`: the run does reach
`running`. -/
theorem c7_counterexample :
    isTargetAllowed "8.8.8.8" = false ∧
    statusHistory 1 (executeRoute noExec [] 1 5 reqScan8888).ops =
      [RunStatus.running, RunStatus.completed] ∧
    (getToolRun (executeRoute noExec [] 1 5 reqScan8888).store 1).map (fun r => r.status) =
      some RunStatus.completed := by decide

/-- C7 (amended): for a disallowed target the scan adapter throws before
consulting the command runner — its outcome is the policy error and is
independent of the runner environment (no spawn can be observed) — but the
auto-executed ToolRun is nonetheless created with status `running` and
finalized `completed`. -/
theorem c7_scan_rejects_before_spawn :
    (∀ (env1 env2 : CmdEnv) (args : ToolArgs),
      isTargetAllowed (jsString args.target) = false →
      executeNmap env1 args =
        Except.error "Target not allowed. Only local/private networks are permitted." ∧
      executeNmap env1 args = executeNmap env2 args) ∧
    (∀ (env : CmdEnv) (store : Store) (newId now : Nat) (data : ToolExecutionRequest),
      data.requiresApproval.getD false = false →
      statusHistory newId (executeRoute env store newId now data).ops =
        [RunStatus.running, RunStatus.completed]) := by
  constructor
  · intro env1 env2 args h
    constructor
    · simp [executeNmap, h]
    · simp [executeNmap, h]
  · intro env store newId now data hgd
    simp [executeRoute, createdRun, statusHistory, hgd]

/-- Witness for C7 at the out-of-policy target `8.8.8.8`. -/
theorem c7_scan_rejects_before_spawn_witness :
    executeNmap noExec { target := some "8.8.8.8" } =
      Except.error "Target not allowed. Only local/private networks are permitted." ∧
    executeNmap noExec { target := some "8.8.8.8" } =
      executeNmap demoWhoisEnv { target := some "8.8.8.8" } :=
  c7_scan_rejects_before_spawn.1 noExec demoWhoisEnv { target := some "8.8.8.8" } (by decide)

/-! ## C8: timing and rate are always capped, the port budget is not -/

/-- C8 counterexample: a caller-supplied `ports = "1-65535"` is passed
through verbatim after `-p` and the `--top-ports 100` cap is dropped — a
full-range port scan can be requested. -/
theorem c8_counterexample :
    buildNmapArgs { target := some "192.168.1.10", scanType := some "tcp",
                    ports := some "1-65535" } =
      ["-T2", "--max-rate", "100", "--max-retries", "1", "-sT", "-p", "1-65535",
       "-oX", "-", "192.168.1.10"] ∧
    "--top-ports" ∉
      buildNmapArgs { target := some "192.168.1.10", scanType := some "tcp",
                      ports := some "1-65535" } := by decide

/-- C8 (amended): polite timing (`-T2`), the rate cap (`--max-rate 100`)
and the retry cap (`--max-retries 1`) appear in the argument list for
every input; the port budget is capped (`--top-ports 100`) only when the
caller omits `ports` (or passes the falsy empty string) — any other
caller-supplied `ports` string is passed through verbatim after `-p`. -/
theorem c8_nmap_args_caps :
    (∀ options : ToolArgs,
      List.IsInfix ["-T2"] (buildNmapArgs options) ∧
      List.IsInfix ["--max-rate", "100"] (buildNmapArgs options) ∧
      List.IsInfix ["--max-retries", "1"] (buildNmapArgs options)) ∧
    (∀ options : ToolArgs, options.ports = none ∨ options.ports = some "" →
      List.IsInfix ["--top-ports", "100"] (buildNmapArgs options)) ∧
    (∀ (options : ToolArgs) (p : String), options.ports = some p → p ≠ "" →
      List.IsInfix ["-p", p] (buildNmapArgs options)) := by
  refine ⟨?_, ?_, ?_⟩
  · intro options
    refine ⟨⟨[], ["--max-rate", "100", "--max-retries", "1"] ++
        scanTypeFlags options.scanType ++ portFlags options.ports ++
        ["-oX", "-"] ++ [jsString options.target], ?_⟩,
      ⟨["-T2"], ["--max-retries", "1"] ++ scanTypeFlags options.scanType ++
        portFlags options.ports ++ ["-oX", "-"] ++ [jsString options.target], ?_⟩,
      ⟨["-T2", "--max-rate", "100"], scanTypeFlags options.scanType ++
        portFlags options.ports ++ ["-oX", "-"] ++ [jsString options.target], ?_⟩⟩ <;>
      simp [buildNmapArgs]
  · intro options hp
    refine ⟨["-T2", "--max-rate", "100", "--max-retries", "1"] ++
      scanTypeFlags options.scanType, ["-oX", "-"] ++ [jsString options.target], ?_⟩
    rcases hp with hp | hp <;> simp [buildNmapArgs, portFlags, hp]
  · intro options p hp hne
    refine ⟨["-T2", "--max-rate", "100", "--max-retries", "1"] ++
      scanTypeFlags options.scanType, ["-oX", "-"] ++ [jsString options.target], ?_⟩
    have hb : (p == "") = false := by
      simpa using hne
    simp [buildNmapArgs, portFlags, hp, hb]

/-- Witness for C8: the full-range request passes through. -/
theorem c8_nmap_args_caps_witness :
    List.IsInfix ["-p", "1-65535"] (buildNmapArgs optsFullRange) :=
  c8_nmap_args_caps.2.2 optsFullRange "1-65535" rfl (by decide)

/-! ## C9: the runner has no Timeout failure path -/

/-- The only rejection messages `executeCommand`'s promise can settle with
are the output-size limit and a child `error` event's message. -/
lemma runEvents_error_cases (maxSize : Nat) :
    ∀ (events : List SpawnEvent) (so se : String) (sz : Nat) (m : String),
      runEvents maxSize so se sz events = some (Except.error m) →
      m = "Output size limit exceeded" ∨ SpawnEvent.errored m ∈ events := by
  intro events
  induction events with
  | nil =>
    intro so se sz m h
    simp [runEvents] at h
  | cons ev rest ih =>
    intro so se sz m h
    cases ev with
    | stdoutData chunk =>
      simp only [runEvents] at h
      split at h
      · simp only [Option.some.injEq] at h
        exact Or.inl (Except.error.inj h).symm
      · exact (ih _ _ _ _ h).imp id (List.mem_cons_of_mem _)
    | stderrData chunk =>
      simp only [runEvents] at h
      exact (ih _ _ _ _ h).imp id (List.mem_cons_of_mem _)
    | close code =>
      simp [runEvents] at h
    | errored msg =>
      simp only [runEvents, Option.some.injEq] at h
      exact Or.inr ((Except.error.inj h) ▸ List.mem_cons_self _ _)

/-- C9 (amended): when the child is killed by the `spawn` timeout it emits
`close` with a `null` exit code, and `executeCommand` then resolves
successfully with the partial output and `exitCode = 0` (`code || 0`);
there is no `Timeout` rejection — the only rejection messages are the
output-size limit and a spawn `error` event's message. -/
theorem c9_runner_timeout_resolves_ok :
    (executeCommand none [SpawnEvent.stdoutData "trun", SpawnEvent.stdoutData "cated",
        SpawnEvent.close none] =
      some (Except.ok { stdout := "truncated", stderr := "", exitCode := 0 })) ∧
    (∀ (maxOutputSize : Option Nat) (events : List SpawnEvent) (m : String),
      executeCommand maxOutputSize events = some (Except.error m) →
      m = "Output size limit exceeded" ∨ SpawnEvent.errored m ∈ events) := by
  constructor
  · decide
  · intro maxOutputSize events m h
    exact runEvents_error_cases (maxOutputSize.getD (1024 * 1024)) events "" "" 0 m h

/-- Witness for C9 at a concrete spawn failure. -/
theorem c9_runner_timeout_resolves_ok_witness :
    "boom" = "Output size limit exceeded" ∨
      SpawnEvent.errored "boom" ∈ [SpawnEvent.errored "boom"] :=
  c9_runner_timeout_resolves_ok.2 (some 5) [SpawnEvent.errored "boom"] "boom" (by decide)

/-- C9 counterexample: a child killed at the timeout (its `close` event
carries a `null` code) after producing partial output makes the call
resolve successfully — with the partial stdout and exit code 0 — instead
of failing with a Timeout error. -/
theorem c9_counterexample :
    executeCommand none [SpawnEvent.stdoutData "some output", SpawnEvent.close none] =
      some (Except.ok { stdout := "some output", stderr := "", exitCode := 0 }) := by decide

/-! ## C10: `executeTool` is total and fails closed -/

/-- C10: `executeTool` always returns a `ToolResult` (it is a total
function of the environment and arguments); whenever execution fails —
including an unknown tool name — the result carries `success = false`, an
error message, `riskLevel = high` regardless of the tool, and an audit-log
entry recording the error. -/
theorem c10_execute_tool_failsafe :
    ∀ (env : CmdEnv) (toolName : String) (args : ToolArgs),
      ((executeTool env toolName args).success = false →
        ∃ m, (executeTool env toolName args).error = some m ∧
          (executeTool env toolName args).riskLevel = RiskLevel.high ∧
          (executeTool env toolName args).data = none ∧
          (executeTool env toolName args).auditLog =
            { command := toolName, arguments := args, result := Except.error m }) ∧
      (toolName ≠ "nmap" → toolName ≠ "domain_intel" → toolName ≠ "whois" →
        toolName ≠ "dns_lookup" →
        (executeTool env toolName args).success = false ∧
        (executeTool env toolName args).error = some ("Unknown tool: " ++ toolName)) := by
  intro env toolName args
  constructor
  · intro h
    cases hcore : executeToolCore env toolName args with
    | ok pr =>
      rw [executeTool, hcore] at h
      simp at h
    | error e =>
      refine ⟨e, ?_, ?_, ?_, ?_⟩ <;> rw [executeTool, hcore]
  · intro h1 h2 h3 h4
    have hcore : executeToolCore env toolName args =
        Except.error ("Unknown tool: " ++ toolName) := by
      simp [executeToolCore, h1, h2, h3, h4]
    constructor <;> rw [executeTool, hcore]

/-- Witness for C10 at an unknown tool name. -/
theorem c10_execute_tool_failsafe_witness :
    (executeTool noExec "badtool" ({} : ToolArgs)).success = false ∧
    (executeTool noExec "badtool" ({} : ToolArgs)).error =
      some ("Unknown tool: " ++ "badtool") :=
  (c10_execute_tool_failsafe noExec "badtool" {}).2
    (by decide) (by decide) (by decide) (by decide)

end Ammu
